import Mathlib

/-!
Verification of the incremental semantic-analysis core of a Python static
type checker (mypy-like).  The definitions below are shallow embeddings of
the corresponding Python functions and classes:

* `mypy/tvar_scope.py`        → `TypeVarScope`
* `mypy/plugin.py`            → `Plugin`, `ChainedPlugin`
* `mypy/semanal_namedtuple.py`→ `NamedTupleCallAnalyzer`, `build_namedtuple_typeinfo`, ...
* `mypy/plugins/dataclasses.py` → `DataclassAttribute`, the transform checks
* `mypy/server/aststrip.py`   → `stripStmt` / `strip_target`

Python dictionaries are modelled as association lists with overwrite-on-insert
(`dictSet`) and first-match lookup (`List.lookup`); object identity (`is`)
is modelled by a numeric id field where it matters.  Machine-level aspects
(interning, garbage collection) are out of scope.
-/

set_option autoImplicit false

namespace Mypy

/-- Insert with Python `dict` semantics: overwriting an existing key keeps its
position, a new key is appended at the end. -/
def dictSet {A : Type} (m : List (String × A)) (k : String) (v : A) : List (String × A) :=
  if (m.lookup k).isSome then
    m.map (fun p => if p.1 = k then (k, v) else p)
  else
    m ++ [(k, v)]

/-! ## mypy/tvar_scope.py -/

/-- Model of `mypy.nodes.TypeVarExpr`: the payload that `_bind` copies into the
`TypeVarDef`.  `T` abstracts mypy's `Type` objects. -/
structure TypeVarExpr (T : Type) where
  fullname : String
  values : List T
  upper_bound : T
  variance : Int
  line : Nat
  column : Nat

/-- Model of `mypy.types.TypeVarDef` as constructed by `TypeVarScope._bind`. -/
structure TypeVarDef (T : Type) where
  name : String
  id : Int
  values : List T
  upper_bound : T
  variance : Int
  line : Nat
  column : Nat

/-- Model of `mypy.tvar_scope.TypeVarScope`: map from type-variable fullname to its
`TypeVarDef`, a shared (optional) parent scope, and the two counters. -/
inductive TypeVarScope (T : Type) : Type where
  | mk : List (String × TypeVarDef T) → Option (TypeVarScope T) → Int → Int → TypeVarScope T

def TypeVarScope.scope {T : Type} : TypeVarScope T → List (String × TypeVarDef T)
  | .mk s _ _ _ => s

def TypeVarScope.parent {T : Type} : TypeVarScope T → Option (TypeVarScope T)
  | .mk _ p _ _ => p

def TypeVarScope.func_id {T : Type} : TypeVarScope T → Int
  | .mk _ _ f _ => f

def TypeVarScope.class_id {T : Type} : TypeVarScope T → Int
  | .mk _ _ _ c => c

/-- Constructor `TypeVarScope.__init__`: fresh empty map; counters start at 0 for a root
scope and are copied from the parent when one is given. -/
def TypeVarScope.new {T : Type} (parent : Option (TypeVarScope T)) : TypeVarScope T :=
  match parent with
  | none => .mk [] none 0 0
  | some p => .mk [] (some p) p.func_id p.class_id

/-- Method `TypeVarScope._bind`: build the `TypeVarDef` from the expression and the
chosen id and store it under the expression's fullname.  Returns the def
together with the updated scope (Python mutates `self`). -/
def TypeVarScope._bind {T : Type} (s : TypeVarScope T) (name : String)
    (tvar_expr : TypeVarExpr T) (i : Int) : TypeVarDef T × TypeVarScope T :=
  let tvar_def : TypeVarDef T :=
    { name := name, id := i, values := tvar_expr.values,
      upper_bound := tvar_expr.upper_bound, variance := tvar_expr.variance,
      line := tvar_expr.line, column := tvar_expr.column }
  (tvar_def, .mk (dictSet s.scope tvar_expr.fullname tvar_def) s.parent s.func_id s.class_id)

/-- Method `TypeVarScope.bind_fun_tvar`: decrement `func_id`, then bind with it. -/
def TypeVarScope.bind_fun_tvar {T : Type} (s : TypeVarScope T) (name : String)
    (tvar_expr : TypeVarExpr T) : TypeVarDef T × TypeVarScope T :=
  let s' : TypeVarScope T := .mk s.scope s.parent (s.func_id - 1) s.class_id
  s'._bind name tvar_expr s'.func_id

/-- Method `TypeVarScope.bind_class_tvar`: increment `class_id`, then bind with it. -/
def TypeVarScope.bind_class_tvar {T : Type} (s : TypeVarScope T) (name : String)
    (tvar_expr : TypeVarExpr T) : TypeVarDef T × TypeVarScope T :=
  let s' : TypeVarScope T := .mk s.scope s.parent s.func_id (s.class_id + 1)
  s'._bind name tvar_expr s'.class_id

/-- Method `TypeVarScope.get_binding`: look up in the own map, falling back to the
parent chain. -/
def TypeVarScope.get_binding {T : Type} : TypeVarScope T → String → Option (TypeVarDef T)
  | .mk scope parent _ _, fullname =>
    match scope.lookup fullname with
    | some d => some d
    | none =>
      match parent with
      | some p => p.get_binding fullname
      | none => none

/-- The scopes that can actually arise at runtime: a root scope, a child
scope of a reachable scope, or the state after a bind on a reachable scope. -/
inductive ReachableScope {T : Type} : TypeVarScope T → Prop where
  | root : ReachableScope (TypeVarScope.new none)
  | child (p : TypeVarScope T) : ReachableScope p → ReachableScope (TypeVarScope.new (some p))
  | fun_bind (s : TypeVarScope T) (n : String) (e : TypeVarExpr T) :
      ReachableScope s → ReachableScope (s.bind_fun_tvar n e).2
  | class_bind (s : TypeVarScope T) (n : String) (e : TypeVarExpr T) :
      ReachableScope s → ReachableScope (s.bind_class_tvar n e).2

/-- A concrete `TypeVarExpr` used to evaluate the scope theorems. -/
def tvExprT : TypeVarExpr Unit :=
  { fullname := "m.T", values := [], upper_bound := (), variance := 0, line := 1, column := 0 }

/-! ## mypy/plugin.py: plugin hook dispatch -/

/-- The eight extension points of `mypy.plugin.Plugin`.  Hook callbacks are
opaque values of the abstract type `H`; each lookup method maps a
fully-qualified name to a hook or `None`. -/
structure Plugin (H : Type) where
  get_type_analyze_hook : String → Option H
  get_function_hook : String → Option H
  get_method_signature_hook : String → Option H
  get_method_hook : String → Option H
  get_attribute_hook : String → Option H
  get_class_decorator_hook : String → Option H
  get_metaclass_hook : String → Option H
  get_base_class_hook : String → Option H

/-- The eight kinds of extension point, used to quantify over hook kinds. -/
inductive HookKind : Type where
  | typeAnalyze
  | function
  | methodSignature
  | method
  | attribute
  | classDecorator
  | metaclass
  | baseClass

/-- Dispatch a hook kind to the corresponding lookup method of a plugin. -/
def Plugin.getHook {H : Type} (p : Plugin H) : HookKind → String → Option H
  | .typeAnalyze => p.get_type_analyze_hook
  | .function => p.get_function_hook
  | .methodSignature => p.get_method_signature_hook
  | .method => p.get_method_hook
  | .attribute => p.get_attribute_hook
  | .classDecorator => p.get_class_decorator_hook
  | .metaclass => p.get_metaclass_hook
  | .baseClass => p.get_base_class_hook

/-- Model of `mypy.plugin.ChainedPlugin`: holds the registered plugins in order. -/
structure ChainedPlugin (H : Type) where
  _plugins : List (Plugin H)

/-- Method `ChainedPlugin._find_hook`: return the hook of the first plugin in the
chain for which `lookup` yields a non-null (truthy) hook. -/
def ChainedPlugin._find_hook {H A : Type} (plugins : List A) (lookup : A → Option H) : Option H :=
  match plugins with
  | [] => none
  | p :: rest =>
    match lookup p with
    | some hook => some hook
    | none => ChainedPlugin._find_hook rest lookup

def ChainedPlugin.get_type_analyze_hook {H : Type} (c : ChainedPlugin H)
    (fullname : String) : Option H :=
  ChainedPlugin._find_hook c._plugins (fun plugin => plugin.get_type_analyze_hook fullname)

def ChainedPlugin.get_function_hook {H : Type} (c : ChainedPlugin H)
    (fullname : String) : Option H :=
  ChainedPlugin._find_hook c._plugins (fun plugin => plugin.get_function_hook fullname)

def ChainedPlugin.get_method_signature_hook {H : Type} (c : ChainedPlugin H)
    (fullname : String) : Option H :=
  ChainedPlugin._find_hook c._plugins (fun plugin => plugin.get_method_signature_hook fullname)

def ChainedPlugin.get_method_hook {H : Type} (c : ChainedPlugin H)
    (fullname : String) : Option H :=
  ChainedPlugin._find_hook c._plugins (fun plugin => plugin.get_method_hook fullname)

def ChainedPlugin.get_attribute_hook {H : Type} (c : ChainedPlugin H)
    (fullname : String) : Option H :=
  ChainedPlugin._find_hook c._plugins (fun plugin => plugin.get_attribute_hook fullname)

def ChainedPlugin.get_class_decorator_hook {H : Type} (c : ChainedPlugin H)
    (fullname : String) : Option H :=
  ChainedPlugin._find_hook c._plugins (fun plugin => plugin.get_class_decorator_hook fullname)

def ChainedPlugin.get_metaclass_hook {H : Type} (c : ChainedPlugin H)
    (fullname : String) : Option H :=
  ChainedPlugin._find_hook c._plugins (fun plugin => plugin.get_metaclass_hook fullname)

def ChainedPlugin.get_base_class_hook {H : Type} (c : ChainedPlugin H)
    (fullname : String) : Option H :=
  ChainedPlugin._find_hook c._plugins (fun plugin => plugin.get_base_class_hook fullname)

/-- The chained lookup for an arbitrary hook kind. -/
def ChainedPlugin.getHook {H : Type} (c : ChainedPlugin H) :
    HookKind → String → Option H
  | .typeAnalyze => c.get_type_analyze_hook
  | .function => c.get_function_hook
  | .methodSignature => c.get_method_signature_hook
  | .method => c.get_method_hook
  | .attribute => c.get_attribute_hook
  | .classDecorator => c.get_class_decorator_hook
  | .metaclass => c.get_metaclass_hook
  | .baseClass => c.get_base_class_hook

/-- A plugin whose only hook is a function hook for fullname "m.f". -/
def pluginA : Plugin Nat :=
  { get_type_analyze_hook := fun _ => none
    get_function_hook := fun fullname => if fullname = "m.f" then some 1 else none
    get_method_signature_hook := fun _ => none
    get_method_hook := fun _ => none
    get_attribute_hook := fun _ => none
    get_class_decorator_hook := fun _ => none
    get_metaclass_hook := fun _ => none
    get_base_class_hook := fun _ => none }

/-- A later-registered plugin that also provides a function hook for "m.f". -/
def pluginB : Plugin Nat :=
  { get_type_analyze_hook := fun _ => none
    get_function_hook := fun fullname => if fullname = "m.f" then some 2 else none
    get_method_signature_hook := fun _ => none
    get_method_hook := fun _ => none
    get_attribute_hook := fun _ => none
    get_class_decorator_hook := fun _ => none
    get_metaclass_hook := fun _ => none
    get_base_class_hook := fun _ => none }

/-! ## mypy/semanal_namedtuple.py -/

/-- The `mypy.nodes.ArgKind` constants used by the synthesizers. -/
inductive ArgKind where
  | ARG_POS
  | ARG_OPT
  | ARG_STAR
  | ARG_NAMED
  | ARG_STAR2
  | ARG_NAMED_OPT
  deriving DecidableEq

/-- Model of `mypy.nodes.Var` as used by the named-tuple synthesizer: a name plus an
optional type (`T` abstracts mypy `Type` values). -/
structure Var (T : Type) where
  name : String
  typ : Option T
  deriving DecidableEq

/-- An initializer attached to a synthesized argument: either the `...`
literal the synthesizer inserts itself, or a default expression taken from
the user's call (abstract type `E`). -/
inductive NTExpr (E : Type) where
  | ellipsis
  | expr (e : E)
  deriving DecidableEq

/-- Model of `mypy.nodes.Argument`. -/
structure Argument (T E : Type) where
  var : Var T
  type_ann : Option T
  initializer : Option (NTExpr E)
  kind : ArgKind
  deriving DecidableEq

/-- A method synthesized by `add_method` inside `build_namedtuple_typeinfo`:
its name and full argument list (the implicit first argument included). -/
structure NTMethod (T E : Type) where
  name : String
  args : List (Argument T E)
  is_classmethod : Bool
  deriving DecidableEq

/-- The observable outcome of `build_namedtuple_typeinfo`: per-field property
variables, the `metadata['namedtuple']['fields']` list, and the synthesized
methods.  Tuple fallback types and symbol-table plumbing are not modelled. -/
structure NTTypeInfo (T E : Type) where
  name : String
  fields : List (Var T)
  metadata_fields : List String
  methods : List (NTMethod T E)
  line : Nat
  deriving DecidableEq

def NTTypeInfo.findMethod {T E : Type} (info : NTTypeInfo T E) (n : String) :
    Option (NTMethod T E) :=
  info.methods.find? (fun m => m.name = n)

/-- Helper `make_init_arg` inside `build_namedtuple_typeinfo`: `ARG_POS` when the
field has no entry in `default_items`, `ARG_OPT` with the default attached
otherwise. -/
def make_init_arg {T E : Type} (default_items : List (String × E)) (v : Var T) :
    Argument T E :=
  match default_items.lookup v.name with
  | none => { var := v, type_ann := v.typ, initializer := none, kind := .ARG_POS }
  | some d =>
    { var := v, type_ann := v.typ, initializer := some (.expr d), kind := .ARG_OPT }

/-- The implicit first argument `add_method` prepends: `_cls` for
classmethods and for `__new__`, `_self` otherwise.  The synthesized self
types (the `_NT` type variable and `Type[_NT]`) are not modelled, hence the
`none` annotations. -/
def add_method_first_arg {T E : Type} (is_classmethod is_new : Bool) : Argument T E :=
  if is_classmethod || is_new then
    { var := { name := "_cls", typ := none }, type_ann := none,
      initializer := none, kind := .ARG_POS }
  else
    { var := { name := "_self", typ := none }, type_ann := none,
      initializer := none, kind := .ARG_POS }

/-- Method `NamedTupleAnalyzer.build_namedtuple_typeinfo`, restricted to the members
it synthesizes: the field property variables, the metadata fields list, and
the methods `_replace`, `__new__`, `_asdict`, `_make` in source order. -/
def build_namedtuple_typeinfo {T E : Type} (name : String) (items : List String)
    (types : List T) (default_items : List (String × E)) (line : Nat) :
    NTTypeInfo T E :=
  let fields := (items.zip types).map (fun p => ({ name := p.1, typ := some p.2 } : Var T))
  let vars := (items.zip types).map (fun p => ({ name := p.1, typ := some p.2 } : Var T))
  let replace_method : NTMethod T E :=
    { name := "_replace",
      args := add_method_first_arg false false ::
        vars.map (fun v => ({ var := v, type_ann := v.typ,
                              initializer := some .ellipsis,
                              kind := .ARG_NAMED_OPT } : Argument T E)),
      is_classmethod := false }
  let new_method : NTMethod T E :=
    { name := "__new__",
      args := add_method_first_arg false true :: vars.map (make_init_arg default_items),
      is_classmethod := false }
  let asdict_method : NTMethod T E :=
    { name := "_asdict", args := [add_method_first_arg false false],
      is_classmethod := false }
  let make_method : NTMethod T E :=
    { name := "_make",
      args := add_method_first_arg true false ::
        [{ var := { name := "iterable", typ := none }, type_ann := none,
           initializer := none, kind := .ARG_POS },
         { var := { name := "new", typ := none }, type_ann := none,
           initializer := some .ellipsis, kind := .ARG_NAMED_OPT },
         { var := { name := "len", typ := none }, type_ann := none,
           initializer := some .ellipsis, kind := .ARG_NAMED_OPT }],
      is_classmethod := true }
  { name := name, fields := fields, metadata_fields := items,
    methods := [replace_method, new_method, asdict_method, make_method], line := line }

/-- The construction of `default_items` in `check_namedtuple`: the defaults
are zipped onto the last `len(defaults)` items. -/
def default_items_of {E : Type} (items : List String) (defaults : List E) :
    List (String × E) :=
  if defaults.length > 0 then
    (items.drop (items.length - defaults.length)).zip defaults
  else []

/-- The result type of `parse_namedtuple_args` (`NamedTupleStructure` in the
source): field names, field types, defaults, the typename, and the
all-types-ready flag; `none` when the definition did not check. -/
abbrev NamedTupleStructure (T E : Type) : Type :=
  Option (List String × List T × List E × String × Bool)

/-- The tail of `NamedTupleAnalyzer.check_namedtuple` after
`parse_namedtuple_args` produced `result` (callee recognition and the
symbol-table stores are outside the model).  Returns the diagnostics this
code emits — this path never calls `fail` — together with the
`(internal name, TypeInfo)` pair the source returns. -/
def check_namedtuple_dispatch {T E : Type}
    (result : NamedTupleStructure T E) (var_name : Option String)
    (is_func_scope : Bool) (call_line : Nat) :
    List String × (Option String × Option (NTTypeInfo T E)) :=
  match result with
  | none =>
    let name :=
      match var_name with
      | some v => v
      | none => "namedtuple@" ++ toString call_line
    ([],
     (some name,
      some (build_namedtuple_typeinfo name [] [] ([] : List (String × E)) call_line)))
  | some (items, types, defaults, typename, ok) =>
    if !ok then ([], (some typename, none))
    else
      let name0 :=
        match var_name with
        | some v => v
        | none => typename
      let name :=
        if var_name.isNone || is_func_scope then name0 ++ "@" ++ toString call_line
        else name0
      ([],
       (some typename,
        some (build_namedtuple_typeinfo name items types
          (default_items_of items defaults) call_line)))

/-! ### `NamedTupleCallAnalyzer._validate_fields` -/

/-- The Python 3 keyword list backing `keyword.iskeyword`. -/
def PY_KEYWORDS : List String :=
  ["False", "None", "True", "and", "as", "assert", "async", "await", "break",
   "class", "continue", "def", "del", "elif", "else", "except", "finally",
   "for", "from", "global", "if", "import", "in", "is", "lambda", "nonlocal",
   "not", "or", "pass", "raise", "return", "try", "while", "with", "yield"]

def iskeyword (s : String) : Bool := PY_KEYWORDS.contains s

def isIdentStart (c : Char) : Bool := c.isAlpha || c = '_'

def isIdentCont (c : Char) : Bool := c.isAlpha || c.isDigit || c = '_'

/-- Python `str.isidentifier`, modelled for ASCII identifiers. -/
def isidentifier (s : String) : Bool :=
  match s.toList with
  | [] => false
  | c :: rest => isIdentStart c && rest.all isIdentCont

/-- Python `name.startswith('_')`, modelled on the character list (the builtin
`String.startsWith` is compiled by well-founded recursion and does not
reduce in the kernel). -/
def startsWithUnderscore (s : String) : Bool :=
  match s.toList with
  | [] => false
  | c :: _ => c = '_'

/-- Python `repr` of a simple string (no escaping needed for the names the
diagnostics quote). -/
def pyRepr (s : String) : String := "'" ++ s ++ "'"

def identErrorMsg (name : String) : String :=
  "Type names and field names must be valid identifiers: " ++ pyRepr name

def keywordErrorMsg (name : String) : String :=
  "Type names and field names cannot be a keyword: " ++ pyRepr name

def underscoreErrorMsg (name : String) : String :=
  "Field names cannot start with an underscore: " ++ pyRepr name

def duplicateErrorMsg (name : String) : String :=
  "Encountered duplicate field name: " ++ pyRepr name

def defaultsCountErrorMsg : String := "Got more default values than field names"

/-- The `rename=True` pass of `_validate_fields`: a name that is not an
identifier, is a keyword, starts with an underscore, or was seen before is
replaced by the positional placeholder; `seen` collects the original names
(the source adds `name`, not the replacement, to `seen`). -/
def renameFields (index : Nat) (seen : List String) : List String → List String
  | [] => []
  | name :: rest =>
    let name' :=
      if !(isidentifier name) || iskeyword name || startsWithUnderscore name
          || seen.contains name then
        "_" ++ toString index
      else name
    name' :: renameFields (index + 1) (name :: seen) rest

/-- First validation loop of `_validate_fields` over `[typename] ++
field_names`: both checks fire independently per name. -/
def identKeywordErrors : List String → List String
  | [] => []
  | name :: rest =>
    (if isidentifier name then [] else [identErrorMsg name]) ++
    (if iskeyword name then [keywordErrorMsg name] else []) ++
    identKeywordErrors rest

/-- Second validation loop of `_validate_fields` over the field names:
underscore check (suppressed under `rename`) and duplicate check. -/
def underscoreDupErrors (rename : Bool) (seen : List String) :
    List String → List String
  | [] => []
  | name :: rest =>
    (if startsWithUnderscore name && !rename then [underscoreErrorMsg name] else []) ++
    (if seen.contains name then [duplicateErrorMsg name] else []) ++
    underscoreDupErrors rename (name :: seen) rest

/-- Method `NamedTupleCallAnalyzer._validate_fields`: rename pass (if requested),
then the error-collecting checks; returns the emitted diagnostics and the
parse result (`none` iff any diagnostic was emitted). -/
def _validate_fields {T E : Type} (field_names0 : List String) (types : List T)
    (defaults : List E) (typename : String) (rename : Bool) :
    List String × NamedTupleStructure T E :=
  let field_names := if rename then renameFields 0 [] field_names0 else field_names0
  let errors :=
    identKeywordErrors (typename :: field_names) ++
    underscoreDupErrors rename [] field_names ++
    (if defaults.length > field_names.length then [defaultsCountErrorMsg] else [])
  (errors,
   if errors.isEmpty then some (field_names, types, defaults, typename, true) else none)

/-! ### `NamedTupleCallAnalyzer._typing_namedtuple_from_fields` -/

/-- One element of the `fields` list literal of a `typing.NamedTuple(...)`
call, as inspected by `_typing_namedtuple_from_fields`: an item that is not
a 2-tuple, a 2-tuple whose first element is not a string literal, or a
proper `(name, type)` pair carrying the result of `_analyze_type` on its
type node (`none` when the type is not ready). -/
inductive FieldItem (T : Type) where
  | malformed
  | badName
  | field (name : String) (analyzed : Option T)

/-- The field loop of `_typing_namedtuple_from_fields` with the names and
types accumulated so far, followed by the `_validate_fields` call. -/
def _typing_namedtuple_from_fields_loop {T E : Type} (shortname typename : String)
    (names : List String) (types : List T) :
    List (FieldItem T) → List String × NamedTupleStructure T E
  | [] => _validate_fields names types [] typename false
  | .malformed :: _ =>
    (["Invalid \"" ++ shortname ++ "\" field definition"], none)
  | .badName :: _ =>
    (["Invalid \"" ++ shortname ++ "\" field name"], none)
  | .field _ none :: _ => ([], some ([], [], [], typename, false))
  | .field name (some t) :: rest =>
    _typing_namedtuple_from_fields_loop shortname typename
      (names ++ [name]) (types ++ [t]) rest

def _typing_namedtuple_from_fields {T E : Type} (shortname typename : String)
    (items : List (FieldItem T)) : List String × NamedTupleStructure T E :=
  _typing_namedtuple_from_fields_loop shortname typename [] [] items

/-! ### `NamedTupleAnalyzer.save_namedtuple_body` -/

/-- The constant `NAMEDTUPLE_PROHIBITED_NAMES` (note: `__doc__` is not in this list; the
restore loop explicitly allows the class to overwrite `__doc__`). -/
def NAMEDTUPLE_PROHIBITED_NAMES : List String :=
  ["__new__", "__init__", "__slots__", "__getnewargs__", "_fields",
   "_field_defaults", "_field_types", "_make", "_replace", "_asdict",
   "_source", "__annotations__"]

/-- A symbol-table entry as inspected by `save_namedtuple_body`; `id` models
CPython object identity (`is`). -/
structure SymNode where
  id : Nat
  is_func_or_decorator : Bool
  plugin_generated : Bool
  deriving DecidableEq

/-- Python `nt_names.get(p) is s`. -/
def isSameNode (a : Option SymNode) (s : SymNode) : Bool :=
  match a with
  | none => false
  | some t => t.id = s.id

def cannotOverwriteMsg (name : String) : String :=
  "Cannot overwrite NamedTuple attribute \"" ++ name ++ "\""

/-- The diagnostic loop of `save_namedtuple_body` after the `yield`: for each
prohibited name bound in the analyzed class body that is not the very node
saved before the yield, report the cannot-overwrite error at the colliding
node (modelled by its identity). -/
def prohibited_names_errors_loop (nt_names new_names : List (String × SymNode)) :
    List String → List (String × Nat)
  | [] => []
  | p :: rest =>
    (match new_names.lookup p with
     | none => []
     | some s =>
       if isSameNode (nt_names.lookup p) s then []
       else [(cannotOverwriteMsg p, s.id)]) ++
    prohibited_names_errors_loop nt_names new_names rest

def save_namedtuple_body_errors (nt_names new_names : List (String × SymNode)) :
    List (String × Nat) :=
  prohibited_names_errors_loop nt_names new_names NAMEDTUPLE_PROHIBITED_NAMES

/-! ## mypy/plugins/dataclasses.py -/

/-- The shape of a mypy `Type` as far as the dataclasses transform inspects
it: an `Instance` with its class fullname, a callable type, or anything
else. -/
inductive DCType where
  | instanceOf (fullname : String)
  | callable
  | other
  deriving DecidableEq

/-- Method `DataclassTransformer._is_kw_only_type`: is the type the
`dataclasses.KW_ONLY` sentinel? -/
def _is_kw_only_type (node : Option DCType) : Bool :=
  match node with
  | none => false
  | some (DCType.instanceOf fullname) => fullname = "dataclasses.KW_ONLY"
  | some _ => false

/-- Model of `mypy.plugins.dataclasses.DataclassAttribute` (the fields read by the
ordering check and the freeze logic). -/
structure DataclassAttribute where
  name : String
  «alias» : Option String
  is_in_init : Bool
  is_init_var : Bool
  has_default : Bool
  line : Nat
  column : Nat
  type : Option DCType
  kw_only : Bool
  deriving DecidableEq

/-- An error context: the class definition itself, or an explicit
line/column pair (`Context(line=..., column=...)`). -/
inductive DCContext where
  | cls
  | lineCol (line column : Nat)
  deriving DecidableEq

def defaultsOrderMsg : String :=
  "Attributes without a default cannot follow attributes with one"

def kwOnlySentinelMsg : String :=
  "There may not be more than one field with the KW_ONLY type"

/-- The context `collect_attributes` uses for ordering errors: the
attribute's own position when it is declared in the current class, the
class definition when the violation arises from merging ancestor fields. -/
def attrContext (current_attr_names : List String) (attr : DataclassAttribute) :
    DCContext :=
  if current_attr_names.contains attr.name then .lineCol attr.line attr.column
  else .cls

/-- The third phase of `DataclassTransformer.collect_attributes`: walk the
merged attribute list, tracking whether a default on an attribute that is in
`__init__` has been seen and whether a `KW_ONLY` sentinel has been seen, and
report the ordering and repeated-sentinel errors. -/
def collect_attributes_order_errors (current_attr_names : List String)
    (found_default found_kw_sentinel : Bool) :
    List DataclassAttribute → List (String × DCContext)
  | [] => []
  | attr :: rest =>
    (if found_default && attr.is_in_init && !attr.has_default && !attr.kw_only then
       [(defaultsOrderMsg, attrContext current_attr_names attr)]
     else []) ++
    (if found_kw_sentinel && _is_kw_only_type attr.type then
       [(kwOnlySentinelMsg, attrContext current_attr_names attr)]
     else []) ++
    collect_attributes_order_errors current_attr_names
      (found_default || (attr.has_default && attr.is_in_init))
      (found_kw_sentinel || _is_kw_only_type attr.type) rest

def check_attribute_order (current_attr_names : List String)
    (all_attrs : List DataclassAttribute) : List (String × DCContext) :=
  collect_attributes_order_errors current_attr_names false false all_attrs

/-- A symbol-table node of the transformed class, as far as `_freeze` and
`_propertize_callables` inspect and update it. -/
inductive DCNode where
  | var (is_property : Bool) (is_settable_property : Bool)
  | other
  deriving DecidableEq

/-- Method `DataclassTransformer._freeze`: make each collected attribute's `Var` a
property; attributes without a symbol-table entry get a fresh property
`Var` (a fresh `Var` has `is_settable_property = False`); entries that are
not `Var`s are left alone. -/
def _freeze (attributes : List DataclassAttribute)
    (names : List (String × DCNode)) : List (String × DCNode) :=
  attributes.foldl
    (fun ns attr =>
      match ns.lookup attr.name with
      | some (DCNode.var _ settable) => dictSet ns attr.name (DCNode.var true settable)
      | some DCNode.other => ns
      | none => dictSet ns attr.name (DCNode.var true false)) names

/-- Method `DataclassTransformer._propertize_callables`: attributes with a callable
type become (settable, per the flag) properties. -/
def _propertize_callables (attributes : List DataclassAttribute)
    (names : List (String × DCNode)) (settable : Bool) : List (String × DCNode) :=
  attributes.foldl
    (fun ns attr =>
      if attr.type = some DCType.callable then
        dictSet ns attr.name (DCNode.var true settable)
      else ns) names

/-- An entry of `info.mro[1:-1]`: the ancestor's fullname and the `frozen`
flag of its `metadata["dataclass"]` entry, when the ancestor was processed
as a dataclass. -/
structure MroEntry where
  fullname : String
  dataclass_metadata : Option Bool
  deriving DecidableEq

/-- The frozen-inheritance section of `DataclassTransformer.transform`:
collect the dataclass metadata of the ancestors, report the two
frozen-inheritance errors, and freeze/propertize the attributes.  Errors are
`(message, context fullname)` pairs; the source passes the transformed
class's own `info` as the context of both errors. -/
def transform_frozen_section (cls_info_fullname : String) (frozen : Bool)
    (mro_rest : List MroEntry) (attributes : List DataclassAttribute)
    (names : List (String × DCNode)) :
    List (String × String) × List (String × DCNode) :=
  let parent_decorator_arguments := mro_rest.filterMap (fun e => e.dataclass_metadata)
  if frozen then
    let errors :=
      if parent_decorator_arguments.any (fun parent_frozen => !parent_frozen) then
        [("Cannot inherit frozen dataclass from a non-frozen one", cls_info_fullname)]
      else []
    (errors, _freeze attributes (_propertize_callables attributes names false))
  else
    let errors :=
      if parent_decorator_arguments.any (fun parent_frozen => parent_frozen) then
        [("Cannot inherit non-frozen dataclass from a frozen one", cls_info_fullname)]
      else []
    (errors, _propertize_callables attributes names true)

/-! ## mypy/server/aststrip.py -/

/-- Model of `CallableType` as far as the stripper touches it: the bound
type-variable list plus an opaque payload. -/
structure StripCallableType (T : Type) where
  «variables» : List String
  payload : T
  deriving DecidableEq

/-- The `TypeInfo` fields reset by `NodeStripVisitor.strip_type_info`, plus
the declaration's own type-variable list that `add_type_vars` re-derives. -/
structure StripTypeInfo (T : Type) where
  defn_type_vars : List String
  type_vars : List String
  bases : List T
  abstract_attributes : List String
  mro : List String
  tuple_type : Option T
  typeddict_type : Option T
  _cache : List String
  _cache_proper : List String
  declared_metaclass : Option T
  metaclass_type : Option T
  deriving DecidableEq

/-- Method `NodeStripVisitor.strip_type_info`. -/
def strip_type_info {T : Type} (info : StripTypeInfo T) : StripTypeInfo T :=
  { info with
    type_vars := info.defn_type_vars
    bases := []
    abstract_attributes := []
    mro := []
    tuple_type := none
    typeddict_type := none
    _cache := []
    _cache_proper := []
    declared_metaclass := none
    metaclass_type := none }

/-- The statement forms distinguished by `NodeStripVisitor`.  Expression
nodes are not modelled: they contain no function definitions, and the
module-level symbol table is outside this model. -/
inductive StripStmt (T : Type) where
  | funcDef (name : String) (typ : Option (StripCallableType T))
      (unanalyzed_type : Option (StripCallableType T))
      (expanded : List String) (body : List (StripStmt T))
  | overloadedFuncDef (items : List (StripStmt T)) (impl : Option (StripStmt T))
  | decorator (var_type : Option T) (func : StripStmt T)
  | classDef (name : String) (info : StripTypeInfo T)
      (base_type_exprs removed_base_type_exprs : List T) (body : List (StripStmt T))
  | assignmentStmt (typ : Option T) (unanalyzed_type : Option T)
  | passStmt

mutual

/-- The `NodeStripVisitor` dispatch on one statement; `recurse` is the
`recurse_into_functions` flag (`False` while stripping a module top level).
In `visit_func_def`, `node.type = node.unanalyzed_type` aliases the two
fields, so clearing `node.type.variables` clears them on the unanalyzed
type as well.  In `visit_overloaded_func_def`, appending `impl` to `items`
and then traversing is rendered as traversing `items` and `impl`
separately. -/
def stripStmt {T : Type} (recurse : Bool) : StripStmt T → StripStmt T
  | .funcDef name typ unanalyzed expanded body =>
    if recurse then
      let unanalyzed' := unanalyzed.map (fun c => { c with «variables» := [] })
      .funcDef name unanalyzed' unanalyzed' [] (stripStmts recurse body)
    else
      .funcDef name typ unanalyzed expanded body
  | .overloadedFuncDef items impl =>
    if recurse then
      match impl with
      | some i =>
        .overloadedFuncDef (stripStmts recurse items ++ [stripStmt recurse i])
          (some (stripStmt recurse i))
      | none => .overloadedFuncDef (stripStmts recurse items) none
    else
      .overloadedFuncDef items impl
  | .decorator _ func =>
    .decorator none (if recurse then stripStmt recurse func else func)
  | .classDef name info btes rbtes body =>
    .classDef name (strip_type_info info) (btes ++ rbtes) [] (stripStmts recurse body)
  | .assignmentStmt _ unanalyzed => .assignmentStmt unanalyzed unanalyzed
  | .passStmt => .passStmt

def stripStmts {T : Type} (recurse : Bool) : List (StripStmt T) → List (StripStmt T)
  | [] => []
  | s :: rest => stripStmt recurse s :: stripStmts recurse rest

end

/-- The argument of `strip_target`: a module file (its top-level statements)
or a function / overloaded-function target. -/
inductive StripTarget (T : Type) where
  | file (defs : List (StripStmt T))
  | funcItem (node : StripStmt T)

/-- Function `strip_target`: a `MypyFile` goes through `strip_file_top_level`
(`recurse_into_functions = False`); any other target is visited with
`recurse_into_functions = True`. -/
def strip_target {T : Type} : StripTarget T → StripTarget T
  | .file defs => .file (stripStmts false defs)
  | .funcItem node => .funcItem (stripStmt true node)

mutual

/-- All `FuncDef` nodes contained in a statement, as whole subtrees
(including those nested inside class bodies, decorators, overload groups and
other functions). -/
def funcDefsOfStmt {T : Type} : StripStmt T → List (StripStmt T)
  | .funcDef name typ unanalyzed expanded body =>
    [.funcDef name typ unanalyzed expanded body]
  | .overloadedFuncDef items impl =>
    funcDefsOfStmts items ++
      (match impl with
       | some i => funcDefsOfStmt i
       | none => [])
  | .decorator _ func => funcDefsOfStmt func
  | .classDef _ _ _ _ body => funcDefsOfStmts body
  | .assignmentStmt _ _ => []
  | .passStmt => []

def funcDefsOfStmts {T : Type} : List (StripStmt T) → List (StripStmt T)
  | [] => []
  | s :: rest => funcDefsOfStmt s ++ funcDefsOfStmts rest

end

/-! ## Theorems -/

theorem lookup_zip_eq_none {E : Type} (l : List String) (d : List E) (x : String)
    (hx : x ∉ l) : (l.zip d).lookup x = none := by
  induction l generalizing d with
  | nil => simp [List.lookup]
  | cons a rest ih =>
    cases d with
    | nil => simp [List.lookup]
    | cons b bs =>
      have hxa : ¬(x = a) := fun h => hx (h ▸ List.mem_cons_self a rest)
      have hxr : x ∉ rest := fun h => hx (List.mem_cons_of_mem a h)
      simp only [List.zip_cons_cons, List.lookup]
      rw [show (x == a) = false from beq_eq_false_iff_ne.mpr hxa]
      exact ih bs hxr

theorem lookup_zip_getElem {E : Type} (l : List String) (d : List E) (i : Nat)
    (hnd : l.Nodup) (hi : i < l.length) (hid : i < d.length) :
    (l.zip d).lookup l[i] = some d[i] := by
  induction l generalizing d i with
  | nil => simp at hi
  | cons a rest ih =>
    cases d with
    | nil => simp at hid
    | cons b bs =>
      cases i with
      | zero => simp [List.lookup]
      | succ j =>
        have hj : j < rest.length := by simpa using hi
        have hjd : j < bs.length := by simpa using hid
        have hmem : rest[j] ∈ rest := List.getElem_mem hj
        have hne : ¬(rest[j] = a) := by
          intro h
          exact (List.nodup_cons.mp hnd).1 (h ▸ hmem)
        simp only [List.zip_cons_cons, List.getElem_cons_succ, List.lookup]
        rw [show (rest[j] == a) = false from beq_eq_false_iff_ne.mpr hne]
        exact ih bs j (List.nodup_cons.mp hnd).2 hj hjd

theorem default_items_lookup_none {E : Type} (items : List String) (defaults : List E)
    (i : Nat) (hnodup : items.Nodup) (hi : i < items.length - defaults.length)
    (hil : i < items.length) :
    (default_items_of items defaults).lookup items[i] = none := by
  unfold default_items_of
  by_cases hK : defaults.length > 0
  · simp only [if_pos hK]
    apply lookup_zip_eq_none
    intro hmem
    rcases List.mem_iff_getElem.mp hmem with ⟨j, hj, hje⟩
    have hjlt : j < items.length - (items.length - defaults.length) := by
      simpa [List.length_drop] using hj
    rw [List.getElem_drop] at hje
    have := (List.Nodup.getElem_inj_iff hnodup).mp hje
    omega
  · simp only [if_neg hK, List.lookup]

theorem default_items_lookup_some {E : Type} (items : List String) (defaults : List E)
    (i : Nat) (hnodup : items.Nodup) (hK : defaults.length ≤ items.length)
    (hlo : items.length - defaults.length ≤ i) (hi : i < items.length) :
    (default_items_of items defaults).lookup items[i]
      = defaults[i - (items.length - defaults.length)]? := by
  unfold default_items_of
  have hKpos : defaults.length > 0 := by omega
  simp only [if_pos hKpos]
  have hdroplen : (items.drop (items.length - defaults.length)).length = defaults.length := by
    simp [List.length_drop]
    omega
  have hj : i - (items.length - defaults.length) <
      (items.drop (items.length - defaults.length)).length := by omega
  have hjd : i - (items.length - defaults.length) < defaults.length := by omega
  have hgd : (items.drop (items.length - defaults.length))[i - (items.length - defaults.length)]
      = items[i] := by
    rw [List.getElem_drop]
    congr 1
    omega
  have hnd : (items.drop (items.length - defaults.length)).Nodup :=
    hnodup.sublist (List.drop_sublist _ _)
  rw [← hgd, lookup_zip_getElem _ _ _ hnd hj hjd, List.getElem?_eq_getElem hjd]

theorem build_namedtuple_new_method {T E : Type} (name : String) (items : List String)
    (types : List T) (ditems : List (String × E)) (line : Nat) :
    (build_namedtuple_typeinfo name items types ditems line).findMethod "__new__"
      = some
        { name := "__new__",
          args := add_method_first_arg false true ::
            ((items.zip types).map
              (fun p => ({ name := p.1, typ := some p.2 } : Var T))).map
              (make_init_arg ditems),
          is_classmethod := false } := rfl

/-- Claim C1: for a valid named-tuple definition with `N` fields of which
exactly the last `K ≤ N` declare defaults, the synthesized `__new__` takes
the `N` fields in declaration order after the implicit `_cls` argument: the
first `N - K` are required positional arguments without an initializer, the
last `K` are optional with the default of the field that declared it
attached (`check_namedtuple` zips the defaults onto the last `K` items and
`build_namedtuple_typeinfo` marks exactly those arguments `ARG_OPT`). -/
theorem namedtuple_new_ctor_args {T E : Type} (typename : String) (items : List String)
    (types : List T) (defaults : List E) (var_name : Option String)
    (is_func_scope : Bool) (line : Nat)
    (hnodup : items.Nodup) (hlen : types.length = items.length)
    (hK : defaults.length ≤ items.length) :
    ∃ (info : NTTypeInfo T E) (newm : NTMethod T E),
      (check_namedtuple_dispatch (some (items, types, defaults, typename, true))
          var_name is_func_scope line).2.2 = some info ∧
      info.findMethod "__new__" = some newm ∧
      newm.args.map (fun a => a.var.name) = "_cls" :: items ∧
      newm.args.length = items.length + 1 ∧
      (∀ i : Nat, i < items.length - defaults.length →
        ∃ a : Argument T E, newm.args[i + 1]? = some a ∧
          a.kind = ArgKind.ARG_POS ∧ a.initializer = none) ∧
      (∀ i : Nat, items.length - defaults.length ≤ i → i < items.length →
        ∃ (a : Argument T E) (d : E), newm.args[i + 1]? = some a ∧
          defaults[i - (items.length - defaults.length)]? = some d ∧
          a.kind = ArgKind.ARG_OPT ∧ a.initializer = some (NTExpr.expr d)) := by
  have hzl : (items.zip types).length = items.length := by
    simp [List.length_zip]
    omega
  refine ⟨_, _, rfl, build_namedtuple_new_method _ items types _ line, ?_, ?_, ?_, ?_⟩
  · rw [List.map_cons, List.map_map, List.map_map]
    refine congrArg₂ List.cons rfl ?_
    have hpt : ∀ p ∈ items.zip types,
        (((fun a : Argument T E => a.var.name) ∘
            make_init_arg (default_items_of items defaults)) ∘
          (fun p : String × T => ({ name := p.1, typ := some p.2 } : Var T))) p
          = Prod.fst p := by
      intro p _
      simp only [Function.comp_apply]
      unfold make_init_arg
      cases h : (default_items_of items defaults).lookup p.1 <;> simp [h]
    rw [List.map_congr_left hpt]
    exact List.map_fst_zip items types hlen.ge
  · simp [List.length_map, hzl]
  · intro i hi
    have hil : i < items.length := by omega
    have hiz : i < (items.zip types).length := by omega
    have hit : i < types.length := by omega
    refine ⟨make_init_arg (default_items_of items defaults)
      { name := items[i], typ := some types[i] }, ?_, ?_⟩
    · simp only [List.getElem?_cons_succ, List.getElem?_map,
        List.getElem?_eq_getElem hiz, List.getElem_zip]
      rfl
    · have hnone := default_items_lookup_none items defaults i hnodup hi hil
      unfold make_init_arg
      rw [hnone]
      exact ⟨rfl, rfl⟩
  · intro i hlo hi
    have hiz : i < (items.zip types).length := by omega
    have hsome := default_items_lookup_some items defaults i hnodup hK hlo hi
    have hit : i < types.length := by omega
    have hjd : i - (items.length - defaults.length) < defaults.length := by omega
    rw [List.getElem?_eq_getElem hjd] at hsome
    refine ⟨make_init_arg (default_items_of items defaults)
      { name := items[i], typ := some types[i] },
      defaults[i - (items.length - defaults.length)], ?_, ?_, ?_⟩
    · simp only [List.getElem?_cons_succ, List.getElem?_map,
        List.getElem?_eq_getElem hiz, List.getElem_zip]
      rfl
    · exact List.getElem?_eq_getElem hjd
    · unfold make_init_arg
      rw [hsome]
      exact ⟨rfl, rfl⟩

theorem from_fields_loop_deferral {T E : Type} (shortname typename fname : String)
    (pre : List (String × T)) (post : List (FieldItem T)) (names : List String)
    (types : List T) :
    _typing_namedtuple_from_fields_loop (E := E) shortname typename names types
        (pre.map (fun p => FieldItem.field p.1 (some p.2)) ++ FieldItem.field fname none :: post)
      = ([], some ([], [], [], typename, false)) := by
  induction pre generalizing names types with
  | nil => rfl
  | cons p rest ih =>
    simp only [List.map_cons, List.cons_append, _typing_namedtuple_from_fields_loop]
    exact ih _ _

theorem from_fields_loop_malformed {T E : Type} (shortname typename : String)
    (pre : List (String × T)) (post : List (FieldItem T)) (names : List String)
    (types : List T) :
    _typing_namedtuple_from_fields_loop (E := E) shortname typename names types
        (pre.map (fun p => FieldItem.field p.1 (some p.2)) ++ FieldItem.malformed :: post)
      = (["Invalid \"" ++ shortname ++ "\" field definition"], none) := by
  induction pre generalizing names types with
  | nil => rfl
  | cons p rest ih =>
    simp only [List.map_cons, List.cons_append, _typing_namedtuple_from_fields_loop]
    exact ih _ _

/-- Claim C4: when a field's type analysis yields nothing (a not-yet-ready
forward reference), `_typing_namedtuple_from_fields` returns the success
marker with empty data — empty names, types and defaults, the typename and
`ok = False` — emitting no diagnostic, and `check_namedtuple` then returns
the typename with no `TypeInfo` (again without a diagnostic).  Failure is
distinct: a malformed field item makes parsing return `None` (with a
diagnostic). -/
theorem namedtuple_deferral_not_failure {T E : Type} (pre : List (String × T))
    (fname : String) (post : List (FieldItem T)) (typename : String)
    (var_name : Option String) (is_func_scope : Bool) (line : Nat) :
    (_typing_namedtuple_from_fields (T := T) (E := E) "NamedTuple" typename
        (pre.map (fun p => FieldItem.field p.1 (some p.2)) ++
          FieldItem.field fname none :: post)
      = ([], some ([], [], [], typename, false))) ∧
    (check_namedtuple_dispatch (T := T) (E := E)
        (some ([], [], [], typename, false)) var_name is_func_scope line
      = ([], (some typename, none))) ∧
    (_typing_namedtuple_from_fields (T := T) (E := E) "NamedTuple" typename
        (pre.map (fun p => FieldItem.field p.1 (some p.2)) ++ FieldItem.malformed :: post)
      = (["Invalid \"NamedTuple\" field definition"], none)) :=
  ⟨from_fields_loop_deferral "NamedTuple" typename fname pre post [] [],
   rfl,
   from_fields_loop_malformed "NamedTuple" typename pre post [] []⟩

theorem contains_congr (l1 l2 : List String) (x : String) (h : x ∈ l1 ↔ x ∈ l2) :
    l1.contains x = l2.contains x := by
  by_cases hx : x ∈ l1
  · have hx2 : x ∈ l2 := h.mp hx
    simp [hx, hx2]
  · have hx2 : x ∉ l2 := fun hh => hx (h.mpr hh)
    simp [hx, hx2]

theorem renameFields_length (k : Nat) (seen l : List String) :
    (renameFields k seen l).length = l.length := by
  induction l generalizing k seen with
  | nil => rfl
  | cons a rest ih => simp [renameFields, ih]

theorem renameFields_getElem (l : List String) (k : Nat) (seen : List String) (i : Nat)
    (hi : i < l.length) :
    (renameFields k seen l)[i]? = some (
      if !(isidentifier l[i]) || iskeyword l[i] || startsWithUnderscore l[i]
          || (l.take i ++ seen).contains l[i] then
        "_" ++ toString (k + i)
      else l[i]) := by
  induction l generalizing k seen i with
  | nil => simp at hi
  | cons a rest ih =>
    cases i with
    | zero =>
      simp only [renameFields, List.getElem?_cons_zero, List.getElem_cons_zero,
        List.take_zero, List.nil_append, Nat.add_zero]
    | succ j =>
      have hj : j < rest.length := by simpa using hi
      have hc : ((a :: rest).take (j + 1) ++ seen).contains rest[j]
          = (rest.take j ++ (a :: seen)).contains rest[j] := by
        simp only [List.take_succ_cons]
        apply contains_congr
        simp only [List.cons_append, List.mem_cons, List.mem_append]
        tauto
      simp only [renameFields, List.getElem?_cons_succ, List.getElem_cons_succ]
      rw [ih (k + 1) (a :: seen) j hj, hc]
      have hk : k + 1 + j = k + (j + 1) := by omega
      rw [hk]

theorem identKeywordErrors_mem_ident (l : List String) (nm : String) (h : nm ∈ l)
    (hbad : isidentifier nm = false) : identErrorMsg nm ∈ identKeywordErrors l := by
  induction l with
  | nil => cases h
  | cons a rest ih =>
    simp only [identKeywordErrors, List.mem_append]
    rcases List.mem_cons.mp h with rfl | hmem
    · left; left
      simp [hbad]
    · right
      exact ih hmem

theorem identKeywordErrors_mem_keyword (l : List String) (nm : String) (h : nm ∈ l)
    (hkw : iskeyword nm = true) : keywordErrorMsg nm ∈ identKeywordErrors l := by
  induction l with
  | nil => cases h
  | cons a rest ih =>
    simp only [identKeywordErrors, List.mem_append]
    rcases List.mem_cons.mp h with rfl | hmem
    · left; right
      simp [hkw]
    · right
      exact ih hmem

theorem underscoreDupErrors_mem_underscore (l seen : List String) (nm : String)
    (h : nm ∈ l) (hus : startsWithUnderscore nm = true) :
    underscoreErrorMsg nm ∈ underscoreDupErrors false seen l := by
  induction l generalizing seen with
  | nil => cases h
  | cons a rest ih =>
    simp only [underscoreDupErrors, List.mem_append]
    rcases List.mem_cons.mp h with rfl | hmem
    · left; left
      simp [hus]
    · right
      exact ih (a :: seen) hmem

theorem underscoreDupErrors_mem_dup (rename : Bool) (l1 l2 seen : List String)
    (nm : String) (h : nm ∈ l1 ++ seen) :
    duplicateErrorMsg nm ∈ underscoreDupErrors rename seen (l1 ++ nm :: l2) := by
  induction l1 generalizing seen with
  | nil =>
    simp only [List.nil_append] at h ⊢
    simp only [underscoreDupErrors, List.mem_append]
    left; right
    simp [h]
  | cons a rest ih =>
    simp only [List.cons_append, underscoreDupErrors, List.mem_append]
    right
    refine ih (a :: seen) ?_
    rcases List.mem_append.mp h with h1 | h2
    · rcases List.mem_cons.mp h1 with rfl | hr
      · exact List.mem_append.mpr (Or.inr (List.mem_cons_self _ _))
      · exact List.mem_append.mpr (Or.inl hr)
    · exact List.mem_append.mpr (Or.inr (List.mem_cons_of_mem _ h2))

theorem validate_fields_errors_eq {T E : Type} (fn : List String) (types : List T)
    (defaults : List E) (typename : String) (rename : Bool) :
    (_validate_fields fn types defaults typename rename).1 =
      identKeywordErrors (typename :: (if rename then renameFields 0 [] fn else fn)) ++
      underscoreDupErrors rename [] (if rename then renameFields 0 [] fn else fn) ++
      (if defaults.length > (if rename then renameFields 0 [] fn else fn).length
       then [defaultsCountErrorMsg] else []) := rfl

theorem validate_fields_result_eq {T E : Type} (fn : List String) (types : List T)
    (defaults : List E) (typename : String) (rename : Bool) :
    (_validate_fields fn types defaults typename rename).2 =
      (if (_validate_fields fn types defaults typename rename).1.isEmpty
       then some ((if rename then renameFields 0 [] fn else fn), types, defaults,
                  typename, true)
       else none) := rfl

theorem validate_fields_errors_false_eq {T E : Type} (fn : List String) (types : List T)
    (defaults : List E) (typename : String) :
    (_validate_fields fn types defaults typename false).1 =
      identKeywordErrors (typename :: fn) ++
      underscoreDupErrors false [] fn ++
      (if defaults.length > fn.length then [defaultsCountErrorMsg] else []) := rfl

theorem validate_fields_result_rename_eq {T E : Type} (fn : List String) (types : List T)
    (defaults : List E) (typename : String) :
    (_validate_fields fn types defaults typename true).2 =
      (if (_validate_fields fn types defaults typename true).1.isEmpty
       then some (renameFields 0 [] fn, types, defaults, typename, true)
       else none) := rfl

/-- Claim C5: named-tuple field validation (1) rejects non-identifier or
keyword typenames and field names, (2) rejects underscore-prefixed field
names, (3) rejects duplicate field names, (4) rejects more defaults than
fields — reporting a diagnostic for every violation rather than stopping at
the first, and rejecting (returning `None`) exactly when some diagnostic was
emitted; with `rename=True` the invalid, underscore-prefixed, keyword or
duplicate field names are instead silently rewritten to the positional
placeholder; and `namedtuple('Point', ['x', 'x'])` is rejected with exactly
the duplicate-field-name diagnostic citing `x`. -/
theorem validate_fields_spec {T E : Type} :
    (∀ (fn : List String) (types : List T) (defaults : List E) (typename : String),
      (∀ nm ∈ typename :: fn, isidentifier nm = false →
        identErrorMsg nm ∈ (_validate_fields fn types defaults typename false).1) ∧
      (∀ nm ∈ typename :: fn, iskeyword nm = true →
        keywordErrorMsg nm ∈ (_validate_fields fn types defaults typename false).1) ∧
      (∀ nm ∈ fn, startsWithUnderscore nm = true →
        underscoreErrorMsg nm ∈ (_validate_fields fn types defaults typename false).1) ∧
      (∀ (l1 l2 : List String) (nm : String), nm ∈ l1 → fn = l1 ++ nm :: l2 →
        duplicateErrorMsg nm ∈ (_validate_fields fn types defaults typename false).1) ∧
      (defaults.length > fn.length →
        defaultsCountErrorMsg ∈ (_validate_fields fn types defaults typename false).1)) ∧
    (∀ (fn : List String) (types : List T) (defaults : List E) (typename : String)
        (rename : Bool),
      (_validate_fields fn types defaults typename rename).2 = none ↔
        (_validate_fields fn types defaults typename rename).1 ≠ []) ∧
    (∀ (fn : List String) (types : List T) (defaults : List E) (typename : String)
        (res : List String × List T × List E × String × Bool) (i : Nat)
        (hi : i < fn.length),
      (_validate_fields fn types defaults typename true).2 = some res →
      res.1[i]? = some (
        if !(isidentifier fn[i]) || iskeyword fn[i] || startsWithUnderscore fn[i]
            || (fn.take i).contains fn[i] then
          "_" ++ toString i
        else fn[i])) ∧
    (_validate_fields (["x", "x"] : List String) ([(), ()] : List Unit)
        ([] : List Unit) "Point" false
      = (["Encountered duplicate field name: 'x'"], none)) := by
  refine ⟨?_, ?_, ?_, Prod.ext_iff.mpr ⟨by decide, by decide⟩⟩
  · intro fn types defaults typename
    refine ⟨?_, ?_, ?_, ?_, ?_⟩
    · intro nm hm hbad
      rw [validate_fields_errors_false_eq]
      exact List.mem_append.mpr (Or.inl (List.mem_append.mpr
        (Or.inl (identKeywordErrors_mem_ident _ nm hm hbad))))
    · intro nm hm hkw
      rw [validate_fields_errors_false_eq]
      exact List.mem_append.mpr (Or.inl (List.mem_append.mpr
        (Or.inl (identKeywordErrors_mem_keyword _ nm hm hkw))))
    · intro nm hm hus
      rw [validate_fields_errors_false_eq]
      exact List.mem_append.mpr (Or.inl (List.mem_append.mpr
        (Or.inr (underscoreDupErrors_mem_underscore fn [] nm hm hus))))
    · intro l1 l2 nm hm hsplit
      rw [validate_fields_errors_false_eq, hsplit]
      refine List.mem_append.mpr (Or.inl (List.mem_append.mpr (Or.inr ?_)))
      exact underscoreDupErrors_mem_dup false l1 l2 [] nm (by simpa using hm)
    · intro hgt
      rw [validate_fields_errors_false_eq]
      refine List.mem_append.mpr (Or.inr ?_)
      rw [if_pos hgt]
      exact List.mem_singleton.mpr rfl
  · intro fn types defaults typename rename
    rw [validate_fields_result_eq]
    by_cases h : (_validate_fields fn types defaults typename rename).1.isEmpty
    · rw [if_pos h]
      simp [List.isEmpty_iff.mp h]
    · rw [if_neg h]
      simp only [ne_eq, true_iff]
      intro hnil
      exact h (by simp [hnil])
  · intro fn types defaults typename res i hi hsome
    rw [validate_fields_result_rename_eq] at hsome
    by_cases h : (_validate_fields (T := T) (E := E) fn types defaults typename true).1.isEmpty
    · rw [if_pos h] at hsome
      have hres : res.1 = renameFields 0 [] fn := by
        have heq := Option.some.inj hsome
        rw [← heq]
      rw [hres, renameFields_getElem fn 0 [] i hi]
      simp only [List.append_nil, Nat.zero_add]
    · rw [if_neg h] at hsome
      cases hsome

/-- Witness for C5: evaluating the validation spec on `('Point', ['x', 'x'])`
and on a rename example. -/
theorem validate_fields_spec_witness :
    duplicateErrorMsg "x" ∈
      (_validate_fields (["x", "x"] : List String) ([(), ()] : List Unit)
        ([] : List Unit) "Point" false).1 :=
  ((validate_fields_spec (T := Unit) (E := Unit)).1 ["x", "x"] [(), ()] [] "Point").2.2.2.1
    ["x"] [] "x" (by decide) (by decide)

theorem order_errors_of_found_default (current : List String) (fk : Bool)
    (attrs : List DataclassAttribute) (j : Nat) (aj : DataclassAttribute)
    (hj : attrs[j]? = some aj) (hjinit : aj.is_in_init = true)
    (hjdef : aj.has_default = false) (hjkw : aj.kw_only = false) :
    (defaultsOrderMsg, attrContext current aj)
      ∈ collect_attributes_order_errors current true fk attrs := by
  induction attrs generalizing j fk with
  | nil => simp at hj
  | cons a rest ih =>
    cases j with
    | zero =>
      have ha : a = aj := by simpa using hj
      subst ha
      simp only [collect_attributes_order_errors, List.mem_append]
      left; left
      simp [hjinit, hjdef, hjkw]
    | succ m =>
      have hm : rest[m]? = some aj := by simpa using hj
      simp only [collect_attributes_order_errors, List.mem_append, Bool.true_or]
      right
      exact ih _ m hm

theorem order_errors_of_pair (current : List String) (fd fk : Bool)
    (attrs : List DataclassAttribute) (i j : Nat) (ai aj : DataclassAttribute)
    (hij : i < j) (hi : attrs[i]? = some ai) (hj : attrs[j]? = some aj)
    (hdef : ai.has_default = true) (hii : ai.is_in_init = true)
    (hjinit : aj.is_in_init = true) (hjdef : aj.has_default = false)
    (hjkw : aj.kw_only = false) :
    (defaultsOrderMsg, attrContext current aj)
      ∈ collect_attributes_order_errors current fd fk attrs := by
  induction attrs generalizing i j fd fk with
  | nil => simp at hi
  | cons a rest ih =>
    simp only [collect_attributes_order_errors, List.mem_append]
    right
    cases i with
    | zero =>
      have ha : a = ai := by simpa using hi
      subst ha
      obtain ⟨m, rfl⟩ : ∃ m, j = m + 1 := ⟨j - 1, by omega⟩
      have hm : rest[m]? = some aj := by simpa using hj
      simp only [hdef, hii, Bool.and_self, Bool.or_true]
      exact order_errors_of_found_default current _ rest m aj hm hjinit hjdef hjkw
    | succ m' =>
      have hm' : rest[m']? = some ai := by simpa using hi
      obtain ⟨m, rfl⟩ : ∃ m, j = m + 1 := ⟨j - 1, by omega⟩
      have hm : rest[m]? = some aj := by simpa using hj
      exact ih _ _ m' m (by omega) hm' hm

/-- A dataclass attribute with a default that is excluded from the
constructor (`field(init=False, default=...)`). -/
def attrNoInitDefault : DataclassAttribute :=
  { name := "a", «alias» := none, is_in_init := false, is_init_var := false,
    has_default := true, line := 1, column := 0,
    type := some (DCType.instanceOf "builtins.int"), kw_only := false }

/-- A dataclass attribute with a default that is in the constructor. -/
def attrInitDefault : DataclassAttribute :=
  { name := "a", «alias» := none, is_in_init := true, is_init_var := false,
    has_default := true, line := 1, column := 0,
    type := some (DCType.instanceOf "builtins.int"), kw_only := false }

/-- A required (no default, not keyword-only) constructor attribute declared
after the previous ones. -/
def attrRequired : DataclassAttribute :=
  { name := "b", «alias» := none, is_in_init := true, is_init_var := false,
    has_default := false, line := 2, column := 0,
    type := some (DCType.instanceOf "builtins.int"), kw_only := false }

/-- Counterexample to claim C3 as stated: `attrNoInitDefault` has a default
and `attrRequired` — in the constructor, without a default, not
keyword-only — appears after it, yet the ordering check reports nothing,
because the code only arms its `found_default` flag for defaulted attributes
that are also in the constructor (`found_default or (attr.has_default and
attr.is_in_init)`). -/
theorem dataclass_order_claim_counterexample :
    attrNoInitDefault.has_default = true ∧
    attrRequired.is_in_init = true ∧
    attrRequired.has_default = false ∧
    attrRequired.kw_only = false ∧
    check_attribute_order ["a", "b"] [attrNoInitDefault, attrRequired] = [] := by
  refine ⟨rfl, rfl, rfl, rfl, ?_⟩
  decide

/-- Claim C3 (amended): if an attribute that is in the constructor, has no
default and is not keyword-only appears after an attribute that has a
default **and is in the constructor**, the transform reports 'Attributes
without a default cannot follow attributes with one', at the offending
attribute's own line and column when it is declared in the current class and
at the class definition otherwise. -/
theorem dataclass_order_error_amended (current_attr_names : List String)
    (attrs : List DataclassAttribute) (i j : Nat) (ai aj : DataclassAttribute)
    (hij : i < j) (hi : attrs[i]? = some ai) (hj : attrs[j]? = some aj)
    (hdef : ai.has_default = true) (hii : ai.is_in_init = true)
    (hjinit : aj.is_in_init = true) (hjdef : aj.has_default = false)
    (hjkw : aj.kw_only = false) :
    (defaultsOrderMsg,
      if current_attr_names.contains aj.name then DCContext.lineCol aj.line aj.column
      else DCContext.cls)
      ∈ check_attribute_order current_attr_names attrs :=
  order_errors_of_pair current_attr_names false false attrs i j ai aj
    hij hi hj hdef hii hjinit hjdef hjkw

/-- Witness for the amended C3: a defaulted constructor attribute followed by
a required one yields the error at the required attribute's position. -/
theorem dataclass_order_error_amended_witness :
    (defaultsOrderMsg,
      if ["a", "b"].contains attrRequired.name
      then DCContext.lineCol attrRequired.line attrRequired.column
      else DCContext.cls)
      ∈ check_attribute_order ["a", "b"] [attrInitDefault, attrRequired] :=
  dataclass_order_error_amended ["a", "b"] [attrInitDefault, attrRequired] 0 1
    attrInitDefault attrRequired (by decide) rfl rfl rfl rfl rfl rfl rfl

theorem lookup_cons_eq {A : Type} (k : String) (v : A) (l : List (String × A)) :
    List.lookup k ((k, v) :: l) = some v := by
  simp [List.lookup]

theorem lookup_cons_ne {A : Type} (n k : String) (v : A) (l : List (String × A))
    (h : n ≠ k) : List.lookup n ((k, v) :: l) = List.lookup n l := by
  simp [List.lookup, beq_eq_false_iff_ne.mpr h]

theorem lookup_map_overwrite {A : Type} (m : List (String × A)) (k : String) (v : A) :
    ((m.map (fun p => if p.1 = k then (k, v) else p)).lookup k)
      = if (m.lookup k).isSome then some v else none := by
  induction m with
  | nil => simp [List.lookup]
  | cons a rest ih =>
    obtain ⟨a1, a2⟩ := a
    rw [List.map_cons]
    by_cases h : a1 = k
    · subst h
      rw [show (if ((a1, a2) : String × A).1 = a1 then (a1, v) else (a1, a2)) = (a1, v)
          from if_pos rfl]
      rw [lookup_cons_eq, lookup_cons_eq]
      rfl
    · have hne : k ≠ a1 := fun hh => h hh.symm
      rw [show (if ((a1, a2) : String × A).1 = k then (k, v) else (a1, a2)) = (a1, a2)
          from if_neg h]
      rw [lookup_cons_ne k a1 a2 _ hne, lookup_cons_ne k a1 a2 _ hne]
      exact ih

theorem lookup_append_left_none {A : Type} (m l2 : List (String × A)) (k : String)
    (h : m.lookup k = none) : (m ++ l2).lookup k = l2.lookup k := by
  induction m with
  | nil => simp
  | cons a rest ih =>
    obtain ⟨a1, a2⟩ := a
    by_cases hk : k = a1
    · subst hk
      rw [lookup_cons_eq] at h
      cases h
    · rw [lookup_cons_ne k a1 a2 _ hk] at h
      rw [List.cons_append, lookup_cons_ne k a1 a2 _ hk]
      exact ih h

theorem dictSet_lookup_self {A : Type} (m : List (String × A)) (k : String) (v : A) :
    (dictSet m k v).lookup k = some v := by
  unfold dictSet
  by_cases h : (m.lookup k).isSome
  · rw [if_pos h, lookup_map_overwrite, if_pos h]
  · rw [if_neg h]
    have hnone : m.lookup k = none := by
      rcases hk : m.lookup k with _ | d
      · rfl
      · rw [hk] at h
        simp at h
    rw [lookup_append_left_none m _ k hnone]
    simp [List.lookup]

theorem lookup_map_overwrite_other {A : Type} (m : List (String × A)) (k : String) (v : A)
    (n : String) (hne : n ≠ k) :
    ((m.map (fun p => if p.1 = k then (k, v) else p)).lookup n) = m.lookup n := by
  induction m with
  | nil => simp
  | cons a rest ih =>
    obtain ⟨a1, a2⟩ := a
    rw [List.map_cons]
    by_cases h : a1 = k
    · subst h
      rw [show (if ((a1, a2) : String × A).1 = a1 then (a1, v) else (a1, a2)) = (a1, v)
          from if_pos rfl]
      rw [lookup_cons_ne n a1 v _ hne, lookup_cons_ne n a1 a2 _ hne]
      exact ih
    · rw [show (if ((a1, a2) : String × A).1 = k then (k, v) else (a1, a2)) = (a1, a2)
          from if_neg h]
      by_cases hna : n = a1
      · subst hna
        rw [lookup_cons_eq, lookup_cons_eq]
      · rw [lookup_cons_ne n a1 a2 _ hna, lookup_cons_ne n a1 a2 _ hna]
        exact ih

theorem lookup_append_singleton_other {A : Type} (m : List (String × A)) (k : String)
    (v : A) (n : String) (hne : n ≠ k) : (m ++ [(k, v)]).lookup n = m.lookup n := by
  induction m with
  | nil => simp [List.lookup, beq_eq_false_iff_ne.mpr hne]
  | cons a rest ih =>
    obtain ⟨a1, a2⟩ := a
    rw [List.cons_append]
    by_cases hna : n = a1
    · subst hna
      rw [lookup_cons_eq, lookup_cons_eq]
    · rw [lookup_cons_ne n a1 a2 _ hna, lookup_cons_ne n a1 a2 _ hna]
      exact ih

theorem dictSet_lookup_other {A : Type} (m : List (String × A)) (k : String) (v : A)
    (n : String) (hne : n ≠ k) : (dictSet m k v).lookup n = m.lookup n := by
  unfold dictSet
  by_cases h : (m.lookup k).isSome
  · rw [if_pos h, lookup_map_overwrite_other m k v n hne]
  · rw [if_neg h, lookup_append_singleton_other m k v n hne]

/-- The single fold step of `_freeze`: the entry for the attribute becomes a
(non-settable) property variable, and a table in which every entry is absent
or a plain non-settable variable stays that way. -/
theorem freeze_cons (attr : DataclassAttribute) (rest : List DataclassAttribute)
    (ns : List (String × DCNode)) :
    _freeze (attr :: rest) ns
      = _freeze rest
        (match ns.lookup attr.name with
         | some (DCNode.var _ settable) => dictSet ns attr.name (DCNode.var true settable)
         | some DCNode.other => ns
         | none => dictSet ns attr.name (DCNode.var true false)) := rfl

theorem freeze_stable (attrs : List DataclassAttribute) (ns : List (String × DCNode))
    (n : String) (h : ns.lookup n = some (DCNode.var true false)) :
    (_freeze attrs ns).lookup n = some (DCNode.var true false) := by
  induction attrs generalizing ns with
  | nil => exact h
  | cons attr rest ih =>
    rw [freeze_cons]
    rcases hlk : ns.lookup attr.name with _ | node
    · by_cases hn : n = attr.name
      · subst hn
        rw [hlk] at h
        cases h
      · exact ih _ (by rw [dictSet_lookup_other ns attr.name _ n hn]; exact h)
    · rcases node with ⟨b, settable⟩ | _
      · by_cases hn : n = attr.name
        · subst hn
          rw [hlk] at h
          cases h
          exact ih _ (dictSet_lookup_self ns attr.name (DCNode.var true false))
        · exact ih _ (by rw [dictSet_lookup_other ns attr.name _ n hn]; exact h)
      · exact ih _ h

/-- A `_propertize_callables(settable=False)` run changes a looked-up entry
either not at all or into a fresh non-settable property variable. -/
theorem propertize_lookup_cases (attrs : List DataclassAttribute)
    (ns : List (String × DCNode)) (n : String) :
    (_propertize_callables attrs ns false).lookup n = ns.lookup n ∨
    (_propertize_callables attrs ns false).lookup n = some (DCNode.var true false) := by
  induction attrs generalizing ns with
  | nil => left; rfl
  | cons a rest ih =>
    have hcons : _propertize_callables (a :: rest) ns false
        = _propertize_callables rest
          (if a.type = some DCType.callable then dictSet ns a.name (DCNode.var true false)
           else ns) false := rfl
    rw [hcons]
    by_cases hc : a.type = some DCType.callable
    · rw [if_pos hc]
      rcases ih (dictSet ns a.name (DCNode.var true false)) with h | h
      · by_cases hn : n = a.name
        · subst hn
          rw [dictSet_lookup_self] at h
          right
          exact h
        · rw [dictSet_lookup_other ns a.name _ n hn] at h
          left
          exact h
      · right
        exact h
    · rw [if_neg hc]
      exact ih ns

/-- Freezing a field name whose entry is absent or a plain non-settable
variable makes it a non-settable property variable; entries under other
names (synthesized methods, user methods) are irrelevant to this key. -/
theorem freeze_lookup_single (attrs : List DataclassAttribute)
    (ns : List (String × DCNode)) (n : String)
    (hP : ns.lookup n = none ∨ ∃ b : Bool, ns.lookup n = some (DCNode.var b false))
    (hmem : ∃ attr ∈ attrs, attr.name = n) :
    (_freeze attrs ns).lookup n = some (DCNode.var true false) := by
  induction attrs generalizing ns with
  | nil =>
    obtain ⟨attr, hm, _⟩ := hmem
    cases hm
  | cons a rest ih =>
    rw [freeze_cons]
    by_cases ha : a.name = n
    · rcases hP with hnone | ⟨b, hvar⟩
      · rw [ha, hnone]
        exact freeze_stable rest _ n (dictSet_lookup_self ns n (DCNode.var true false))
      · rw [ha, hvar]
        exact freeze_stable rest _ n (dictSet_lookup_self ns n (DCNode.var true false))
    · have hmem' : ∃ attr ∈ rest, attr.name = n := by
        obtain ⟨attr, hm, he⟩ := hmem
        rcases List.mem_cons.mp hm with rfl | hr
        · exact absurd he ha
        · exact ⟨attr, hr, he⟩
      have hne : n ≠ a.name := fun hh => ha hh.symm
      rcases hlk : ns.lookup a.name with _ | node
      · refine ih _ ?_ hmem'
        rw [dictSet_lookup_other ns a.name (DCNode.var true false) n hne]
        exact hP
      · rcases node with ⟨b, s⟩ | _
        · refine ih _ ?_ hmem'
          rw [dictSet_lookup_other ns a.name (DCNode.var true s) n hne]
          exact hP
        · exact ih _ hP hmem'

/-- Counterexample to claim C7 as stated: a frozen dataclass `m.F` with a
non-frozen dataclass ancestor `m.B` does produce the hard error, but the
error's context is the inheriting class `m.F` itself (`self._api.fail(...,
info)`), not the base class `m.B` the claim says it references. -/
theorem dataclass_frozen_claim_counterexample :
    (transform_frozen_section "m.F" true
        [{ fullname := "m.B", dataclass_metadata := some false }] [] []).1
      = [("Cannot inherit frozen dataclass from a non-frozen one", "m.F")] ∧
    "m.F" ≠ "m.B" := by
  constructor
  · decide
  · decide

/-- Claim C7 (amended): if a dataclass with frozen requested has a dataclass
ancestor that is not frozen, or a non-frozen dataclass has a frozen
dataclass ancestor, the transform reports the corresponding hard error
('Cannot inherit frozen dataclass from a non-frozen one', or the converse)
at the inheriting class definition itself — not referencing the base class;
and when frozen is requested, every collected field is converted to a
read-only property.  The error conjuncts hold for any symbol table; the
freeze conjunct constrains only the field's own entry — absent or a plain
non-settable variable, which is what `collect_attributes` guarantees for a
collected field (`assert isinstance(node, Var)`); entries under other names,
such as the synthesized `__init__`, the `_DT` type-variable expression or
user-defined methods, are unconstrained. -/
theorem dataclass_frozen_amended (cls_fullname : String) (mro_rest : List MroEntry)
    (attributes : List DataclassAttribute) (names : List (String × DCNode)) :
    ((∃ e ∈ mro_rest, e.dataclass_metadata = some false) →
      ("Cannot inherit frozen dataclass from a non-frozen one", cls_fullname)
        ∈ (transform_frozen_section cls_fullname true mro_rest attributes names).1) ∧
    ((∃ e ∈ mro_rest, e.dataclass_metadata = some true) →
      ("Cannot inherit non-frozen dataclass from a frozen one", cls_fullname)
        ∈ (transform_frozen_section cls_fullname false mro_rest attributes names).1) ∧
    (∀ attr ∈ attributes,
      (names.lookup attr.name = none ∨
        ∃ b : Bool, names.lookup attr.name = some (DCNode.var b false)) →
      ((transform_frozen_section cls_fullname true mro_rest attributes names).2).lookup
          attr.name
        = some (DCNode.var true false)) := by
  refine ⟨?_, ?_, ?_⟩
  · rintro ⟨e, hmem, hmeta⟩
    have hany : (mro_rest.filterMap (fun e => e.dataclass_metadata)).any
        (fun parent_frozen => !parent_frozen) = true := by
      refine List.any_eq_true.mpr ⟨false, ?_, rfl⟩
      exact List.mem_filterMap.mpr ⟨e, hmem, hmeta⟩
    simp only [transform_frozen_section, if_pos rfl, hany, if_true]
    exact List.mem_singleton.mpr rfl
  · rintro ⟨e, hmem, hmeta⟩
    have hany : (mro_rest.filterMap (fun e => e.dataclass_metadata)).any
        (fun parent_frozen => parent_frozen) = true := by
      refine List.any_eq_true.mpr ⟨true, ?_, rfl⟩
      exact List.mem_filterMap.mpr ⟨e, hmem, hmeta⟩
    simp only [transform_frozen_section, hany, if_true]
    exact List.mem_singleton.mpr rfl
  · intro attr hmem hP
    have hP1 : (_propertize_callables attributes names false).lookup attr.name = none ∨
        ∃ b : Bool, (_propertize_callables attributes names false).lookup attr.name
          = some (DCNode.var b false) := by
      rcases propertize_lookup_cases attributes names attr.name with h | h
      · rw [h]
        exact hP
      · right
        exact ⟨true, h⟩
    show (_freeze attributes (_propertize_callables attributes names false)).lookup attr.name
        = some (DCNode.var true false)
    exact freeze_lookup_single attributes _ attr.name hP1 ⟨attr, hmem, rfl⟩

/-- Witness for the amended C7: a frozen class with a non-frozen dataclass
ancestor, one plain field, and a symbol table that also holds the
synthesized non-variable members a real dataclass has. -/
theorem dataclass_frozen_amended_witness :
    ("Cannot inherit frozen dataclass from a non-frozen one", "m.F")
      ∈ (transform_frozen_section "m.F" true
          [{ fullname := "m.B", dataclass_metadata := some false }]
          [attrRequired]
          [("b", DCNode.var false false), ("__init__", DCNode.other),
           ("_DT", DCNode.other)]).1 ∧
    ((transform_frozen_section "m.F" true
        [{ fullname := "m.B", dataclass_metadata := some false }]
        [attrRequired]
        [("b", DCNode.var false false), ("__init__", DCNode.other),
         ("_DT", DCNode.other)]).2).lookup "b"
      = some (DCNode.var true false) := by
  have h := dataclass_frozen_amended "m.F"
    [{ fullname := "m.B", dataclass_metadata := some false }]
    [attrRequired]
    [("b", DCNode.var false false), ("__init__", DCNode.other), ("_DT", DCNode.other)]
  refine ⟨h.1 ⟨_, List.mem_singleton.mpr rfl, rfl⟩, ?_⟩
  have hb := h.2.2 attrRequired (List.mem_singleton.mpr rfl)
    (Or.inr ⟨false, by decide⟩)
  simpa using hb

theorem prohibited_loop_mem (nt_names new_names : List (String × SymNode))
    (l : List String) (p : String) (hp : p ∈ l) (s : SymNode)
    (hs : new_names.lookup p = some s)
    (hdiff : isSameNode (nt_names.lookup p) s = false) :
    (cannotOverwriteMsg p, s.id) ∈ prohibited_names_errors_loop nt_names new_names l := by
  induction l with
  | nil => cases hp
  | cons q rest ih =>
    simp only [prohibited_names_errors_loop, List.mem_append]
    rcases List.mem_cons.mp hp with rfl | hr
    · left
      simp [hs, hdiff]
    · right
      exact ih hr

theorem prohibited_loop_nil_iff (nt_names new_names : List (String × SymNode))
    (l : List String) :
    prohibited_names_errors_loop nt_names new_names l = [] ↔
      ∀ p ∈ l, ∀ s : SymNode, new_names.lookup p = some s →
        isSameNode (nt_names.lookup p) s = true := by
  induction l with
  | nil => simp [prohibited_names_errors_loop]
  | cons q rest ih =>
    simp only [prohibited_names_errors_loop, List.append_eq_nil, ih, List.mem_cons]
    constructor
    · rintro ⟨hhead, htail⟩ p hp s hs
      rcases hp with rfl | hp
      · rw [hs] at hhead
        rcases hsame : isSameNode (nt_names.lookup p) s with _ | _
        · simp [hsame] at hhead
        · rfl
      · exact htail p hp s hs
    · intro hall
      constructor
      · rcases hq : new_names.lookup q with _ | s'
        · simp
        · have hsame := hall q (Or.inl rfl) s' hq
          simp [hsame]
      · exact fun p hp s hs => hall p (Or.inr hp) s hs

/-- Counterexample to claim C8 as stated: the docstring is not among the
reserved implicit names.  A user-declared `__doc__` that is not the
synthesized node yields no cannot-overwrite diagnostic (the restore loop of
`save_namedtuple_body` explicitly lets the class overwrite `__doc__`),
whereas an identically-shaped collision on `_fields` does yield one. -/
theorem namedtuple_prohibited_claim_counterexample :
    "__doc__" ∉ NAMEDTUPLE_PROHIBITED_NAMES ∧
    save_namedtuple_body_errors
        [("__doc__", { id := 0, is_func_or_decorator := false, plugin_generated := true })]
        [("__doc__", { id := 1, is_func_or_decorator := false, plugin_generated := false })]
      = [] ∧
    save_namedtuple_body_errors
        [("_fields", { id := 0, is_func_or_decorator := false, plugin_generated := true })]
        [("_fields", { id := 1, is_func_or_decorator := false, plugin_generated := false })]
      = [(cannotOverwriteMsg "_fields", 1)] := by
  refine ⟨by decide, by decide, by decide⟩

/-- Claim C8 (amended): the reserved implicit member names of a class-syntax
named tuple are exactly `NAMEDTUPLE_PROHIBITED_NAMES` (`__new__`,
`__init__`, `__slots__`, `__getnewargs__`, `_fields`, `_field_defaults`,
`_field_types`, `_make`, `_replace`, `_asdict`, `_source`,
`__annotations__` — the docstring `__doc__` is not reserved).  A class-body
member bound to one of them that is not the identical node the synthesizer
saved produces a 'Cannot overwrite NamedTuple attribute "<name>"'
diagnostic at that member, and no diagnostic is produced exactly when every
such collision is the saved node itself. -/
theorem namedtuple_prohibited_amended (nt_names new_names : List (String × SymNode)) :
    (∀ p ∈ NAMEDTUPLE_PROHIBITED_NAMES, ∀ s : SymNode,
      new_names.lookup p = some s →
      isSameNode (nt_names.lookup p) s = false →
      (cannotOverwriteMsg p, s.id) ∈ save_namedtuple_body_errors nt_names new_names) ∧
    (save_namedtuple_body_errors nt_names new_names = [] ↔
      ∀ p ∈ NAMEDTUPLE_PROHIBITED_NAMES, ∀ s : SymNode,
        new_names.lookup p = some s → isSameNode (nt_names.lookup p) s = true) :=
  ⟨fun p hp s hs hdiff => prohibited_loop_mem nt_names new_names _ p hp s hs hdiff,
   prohibited_loop_nil_iff nt_names new_names NAMEDTUPLE_PROHIBITED_NAMES⟩

/-- Witness for the amended C8: a fresh user `_fields` member is reported. -/
theorem namedtuple_prohibited_amended_witness :
    (cannotOverwriteMsg "_fields", 1) ∈ save_namedtuple_body_errors
      [("_fields", { id := 0, is_func_or_decorator := false, plugin_generated := true })]
      [("_fields", { id := 1, is_func_or_decorator := false, plugin_generated := false })] :=
  (namedtuple_prohibited_amended _ _).1 "_fields" (by decide)
    { id := 1, is_func_or_decorator := false, plugin_generated := false }
    (by decide) (by decide)

mutual

theorem funcDefs_strip_stmt {T : Type} (s : StripStmt T) :
    funcDefsOfStmt (stripStmt false s) = funcDefsOfStmt s := by
  cases s with
  | funcDef name typ unanalyzed expanded body => rfl
  | overloadedFuncDef items impl => cases impl <;> rfl
  | decorator vt func => rfl
  | classDef name info btes rbtes body =>
    show funcDefsOfStmts (stripStmts false body) = funcDefsOfStmts body
    exact funcDefs_strip_stmts body
  | assignmentStmt t u => rfl
  | passStmt => rfl

theorem funcDefs_strip_stmts {T : Type} (l : List (StripStmt T)) :
    funcDefsOfStmts (stripStmts false l) = funcDefsOfStmts l := by
  cases l with
  | nil => rfl
  | cons s rest =>
    show funcDefsOfStmt (stripStmt false s) ++ funcDefsOfStmts (stripStmts false rest)
        = funcDefsOfStmt s ++ funcDefsOfStmts rest
    rw [funcDefs_strip_stmt s, funcDefs_strip_stmts rest]

end

/-- Claim C6: stripping a module target resets only the module's top-level
statements; with `recurse_into_functions = False` the visitor returns from
`visit_func_def` immediately, so every `FuncDef` node in the module — its
computed signature, its expansions, and its body bindings — is preserved
exactly by the strip. -/
theorem strip_module_preserves_functions {T : Type} (defs : List (StripStmt T)) :
    strip_target (StripTarget.file defs) = StripTarget.file (stripStmts false defs) ∧
    funcDefsOfStmts (stripStmts false defs) = funcDefsOfStmts defs ∧
    (∀ (name : String) (typ unanalyzed : Option (StripCallableType T))
        (expanded : List String) (body : List (StripStmt T)),
      stripStmt false (StripStmt.funcDef name typ unanalyzed expanded body)
        = StripStmt.funcDef name typ unanalyzed expanded body) :=
  ⟨rfl, funcDefs_strip_stmts defs, fun _ _ _ _ _ => rfl⟩

/-- Witness for C1: three fields with one default. -/
theorem namedtuple_new_ctor_args_witness :
    ∃ (info : NTTypeInfo Nat Nat) (newm : NTMethod Nat Nat),
      (check_namedtuple_dispatch (some (["x", "y", "z"], [10, 20, 30], [99], "NT", true))
          none false 7).2.2 = some info ∧
      info.findMethod "__new__" = some newm ∧
      newm.args.map (fun a => a.var.name) = "_cls" :: ["x", "y", "z"] ∧
      newm.args.length = 3 + 1 ∧
      (∀ i : Nat, i < 3 - 1 →
        ∃ a : Argument Nat Nat, newm.args[i + 1]? = some a ∧
          a.kind = ArgKind.ARG_POS ∧ a.initializer = none) ∧
      (∀ i : Nat, 3 - 1 ≤ i → i < 3 →
        ∃ (a : Argument Nat Nat) (d : Nat), newm.args[i + 1]? = some a ∧
          [99][i - (3 - 1)]? = some d ∧
          a.kind = ArgKind.ARG_OPT ∧ a.initializer = some (NTExpr.expr d)) := by
  have h := namedtuple_new_ctor_args (T := Nat) (E := Nat) "NT" ["x", "y", "z"]
    [10, 20, 30] [99] none false 7 (by decide) (by decide) (by decide)
  simpa using h

@[simp] theorem TypeVarScope.scope_mk {T : Type} (s : List (String × TypeVarDef T))
    (p : Option (TypeVarScope T)) (f c : Int) : (TypeVarScope.mk s p f c).scope = s := rfl

@[simp] theorem TypeVarScope.parent_mk {T : Type} (s : List (String × TypeVarDef T))
    (p : Option (TypeVarScope T)) (f c : Int) : (TypeVarScope.mk s p f c).parent = p := rfl

@[simp] theorem TypeVarScope.func_id_mk {T : Type} (s : List (String × TypeVarDef T))
    (p : Option (TypeVarScope T)) (f c : Int) : (TypeVarScope.mk s p f c).func_id = f := rfl

@[simp] theorem TypeVarScope.class_id_mk {T : Type} (s : List (String × TypeVarDef T))
    (p : Option (TypeVarScope T)) (f c : Int) : (TypeVarScope.mk s p f c).class_id = c := rfl

theorem reachable_counter_signs {T : Type} (s : TypeVarScope T)
    (h : ReachableScope s) : s.func_id ≤ 0 ∧ 0 ≤ s.class_id := by
  induction h with
  | root => exact ⟨le_refl 0, le_refl 0⟩
  | child p _ ih => exact ih
  | fun_bind s n e _ ih =>
    simp only [TypeVarScope.bind_fun_tvar, TypeVarScope._bind, TypeVarScope.func_id_mk,
      TypeVarScope.class_id_mk]
    omega
  | class_bind s n e _ ih =>
    simp only [TypeVarScope.bind_class_tvar, TypeVarScope._bind, TypeVarScope.func_id_mk,
      TypeVarScope.class_id_mk]
    omega

/-- Claim C9: every id handed out by `bind_fun_tvar` on a reachable scope is
negative and successive function bindings along one chain get strictly
decreasing ids; every id handed out by `bind_class_tvar` is positive and
successive class bindings get strictly increasing ids; a child scope starts
its counters from its parent's values. -/
theorem tvar_scope_id_signs {T : Type} :
    (∀ s : TypeVarScope T, ReachableScope s → s.func_id ≤ 0 ∧ 0 ≤ s.class_id) ∧
    (∀ (s : TypeVarScope T) (n : String) (e : TypeVarExpr T), ReachableScope s →
      (s.bind_fun_tvar n e).1.id < 0 ∧
      (s.bind_fun_tvar n e).2.func_id = (s.bind_fun_tvar n e).1.id) ∧
    (∀ (s : TypeVarScope T) (n n' : String) (e e' : TypeVarExpr T),
      (((s.bind_fun_tvar n e).2).bind_fun_tvar n' e').1.id < (s.bind_fun_tvar n e).1.id) ∧
    (∀ (s : TypeVarScope T) (n : String) (e : TypeVarExpr T), ReachableScope s →
      0 < (s.bind_class_tvar n e).1.id ∧
      (s.bind_class_tvar n e).2.class_id = (s.bind_class_tvar n e).1.id) ∧
    (∀ (s : TypeVarScope T) (n n' : String) (e e' : TypeVarExpr T),
      (s.bind_class_tvar n e).1.id < (((s.bind_class_tvar n e).2).bind_class_tvar n' e').1.id) ∧
    (∀ p : TypeVarScope T,
      (TypeVarScope.new (some p)).func_id = p.func_id ∧
      (TypeVarScope.new (some p)).class_id = p.class_id) := by
  refine ⟨reachable_counter_signs, ?_, ?_, ?_, ?_, ?_⟩
  · intro s n e hs
    have h := (reachable_counter_signs s hs).1
    have hid : (s.bind_fun_tvar n e).1.id = s.func_id - 1 := rfl
    exact ⟨by omega, rfl⟩
  · intro s n n' e e'
    have h1 : (((s.bind_fun_tvar n e).2).bind_fun_tvar n' e').1.id = s.func_id - 1 - 1 := rfl
    have h2 : (s.bind_fun_tvar n e).1.id = s.func_id - 1 := rfl
    rw [h1, h2]
    omega
  · intro s n e hs
    have h := (reachable_counter_signs s hs).2
    have hid : (s.bind_class_tvar n e).1.id = s.class_id + 1 := rfl
    exact ⟨by omega, rfl⟩
  · intro s n n' e e'
    have h1 : (((s.bind_class_tvar n e).2).bind_class_tvar n' e').1.id = s.class_id + 1 + 1 := rfl
    have h2 : (s.bind_class_tvar n e).1.id = s.class_id + 1 := rfl
    rw [h1, h2]
    omega
  · intro p
    exact ⟨rfl, rfl⟩

/-- Witness for C9: evaluating the theorem on a fresh root scope. -/
theorem tvar_scope_id_signs_witness :
    ((TypeVarScope.new (T := Unit) none).bind_fun_tvar "T" tvExprT).1.id < 0 ∧
    0 < ((TypeVarScope.new (T := Unit) none).bind_class_tvar "T" tvExprT).1.id :=
  ⟨(tvar_scope_id_signs.2.1 _ "T" tvExprT ReachableScope.root).1,
   (tvar_scope_id_signs.2.2.2.1 _ "T" tvExprT ReachableScope.root).1⟩

/-- Claim C10: sibling child scopes of one parent copy the counters
independently, so the first function-level (resp. class-level) binding in
each sibling receives the same id; and a bind leaves the parent reference,
hence the parent's map and counters, untouched. -/
theorem tvar_scope_sibling_ids {T : Type} :
    (∀ (p : TypeVarScope T) (n1 n2 : String) (e1 e2 : TypeVarExpr T),
      ((TypeVarScope.new (some p)).bind_fun_tvar n1 e1).1.id
        = ((TypeVarScope.new (some p)).bind_fun_tvar n2 e2).1.id ∧
      ((TypeVarScope.new (some p)).bind_class_tvar n1 e1).1.id
        = ((TypeVarScope.new (some p)).bind_class_tvar n2 e2).1.id) ∧
    (∀ (s : TypeVarScope T) (n : String) (e : TypeVarExpr T),
      (s.bind_fun_tvar n e).2.parent = s.parent ∧
      (s.bind_class_tvar n e).2.parent = s.parent) := by
  constructor
  · intro p n1 n2 e1 e2
    exact ⟨rfl, rfl⟩
  · intro s n e
    exact ⟨rfl, rfl⟩

theorem find_hook_none_iff {H A : Type} (plugins : List A) (lookup : A → Option H) :
    ChainedPlugin._find_hook plugins lookup = none ↔ ∀ p ∈ plugins, lookup p = none := by
  induction plugins with
  | nil => simp [ChainedPlugin._find_hook]
  | cons p rest ih =>
    simp only [ChainedPlugin._find_hook, List.mem_cons]
    cases h : lookup p with
    | some hook =>
      constructor
      · intro hc
        exact absurd hc (by simp)
      · intro hall
        have hp := hall p (Or.inl rfl)
        rw [h] at hp
        exact absurd hp (by simp)
    | none =>
      rw [ih]
      constructor
      · intro hall q hq
        rcases hq with hq | hq
        · exact hq ▸ h
        · exact hall q hq
      · intro hall q hq
        exact hall q (Or.inr hq)

theorem find_hook_first {H A : Type} (l1 l2 : List A) (p : A) (lookup : A → Option H) (h : H)
    (hnone : ∀ q ∈ l1, lookup q = none) (hsome : lookup p = some h) :
    ChainedPlugin._find_hook (l1 ++ p :: l2) lookup = some h := by
  induction l1 with
  | nil => simp [ChainedPlugin._find_hook, hsome]
  | cons q rest ih =>
    have hq : lookup q = none := hnone q (List.mem_cons_self q rest)
    simp only [List.cons_append, ChainedPlugin._find_hook, hq]
    exact ih (fun r hr => hnone r (List.mem_cons_of_mem q hr))

theorem chained_getHook_eq {H : Type} (c : ChainedPlugin H) (kind : HookKind)
    (fullname : String) :
    c.getHook kind fullname
      = ChainedPlugin._find_hook c._plugins (fun plugin => plugin.getHook kind fullname) := by
  cases kind <;> rfl

/-- Claim C2: for every fully-qualified name and every hook kind, the chained
plugin returns the hook of the first plugin in registration order whose
lookup is non-null, and returns null exactly when every plugin in the chain
returns null. -/
theorem chained_plugin_first_match {H : Type} (c : ChainedPlugin H) (kind : HookKind)
    (fullname : String) :
    (c.getHook kind fullname = none ↔
      ∀ p ∈ c._plugins, p.getHook kind fullname = none) ∧
    (∀ (l1 l2 : List (Plugin H)) (p : Plugin H) (h : H),
      c._plugins = l1 ++ p :: l2 →
      (∀ q ∈ l1, q.getHook kind fullname = none) →
      p.getHook kind fullname = some h →
      c.getHook kind fullname = some h) := by
  constructor
  · rw [chained_getHook_eq]
    exact find_hook_none_iff c._plugins (fun plugin => plugin.getHook kind fullname)
  · intro l1 l2 p h hsplit hnone hsome
    rw [chained_getHook_eq, hsplit]
    exact find_hook_first l1 l2 p (fun plugin => plugin.getHook kind fullname) h hnone hsome

/-- Witness for C2: in a chain registering `pluginA` before `pluginB`, both
providing a function hook for "m.f", the earlier plugin's hook wins. -/
theorem chained_plugin_first_match_witness :
    (ChainedPlugin.mk [pluginA, pluginB]).getHook HookKind.function "m.f" = some 1 :=
  (chained_plugin_first_match (ChainedPlugin.mk [pluginA, pluginB])
      HookKind.function "m.f").2 [] [pluginB] pluginA 1 rfl
    (by intro q hq; cases hq) rfl

end Mypy
